import Mathlib

/-!
Verification development for the date-extraction-and-renaming pipeline of
`src/main.py` (`rename_mycheck`).

The Python functions `extract_date_and_prepare_renaming` and
`rename_files_chronologically` are shallowly embedded below.  Extracted text
is a `List Char`; the filesystem namespace of the working directory is a
`List String` of the names that currently exist; `datetime` values are the
`Date` structure; Python exceptions (`ValueError` from `strptime`,
`FileNotFoundError` from `os.rename`) are modelled by `Except` / an error
constructor, since they are uncaught in the source and abort the run.
Regular-expression scanning (`re.search`, `re.findall`) is embedded as
character-level scanners that are faithful to the two concrete patterns the
source uses, restricted to ASCII digits.
-/

namespace RenameMyCheck

/-- A calendar date, the embedding of a Python `datetime` value (the
time-of-day part is always midnight in the source and is omitted). -/
structure Date where
  year : Nat
  month : Nat
  day : Nat
deriving DecidableEq, Repr

/-- Numeric key realising the chronological order.  For every date produced
by the pipeline `month ≤ 12` and `day ≤ 31`, so this order coincides with
Python's lexicographic `datetime` comparison. -/
def Date.key (d : Date) : Nat := d.year * 10000 + d.month * 100 + d.day

/-- Chronological order on dates, as used by `date_objects.sort()`. -/
def dle (a b : Date) : Prop := a.key ≤ b.key

instance : DecidableRel dle := fun a b => Nat.decLe a.key b.key

instance : IsTotal Date dle := ⟨fun a b => Nat.le_total a.key b.key⟩

instance : IsTrans Date dle := ⟨fun _ _ _ hab hbc => Nat.le_trans hab hbc⟩

instance : IsRefl Date dle := ⟨fun a => Nat.le_refl a.key⟩

/-- Gregorian leap-year rule, as implemented by Python's `datetime`. -/
def isLeapYear (y : Nat) : Bool := (y % 4 == 0 && y % 100 != 0) || y % 400 == 0

/-- Number of days of month `m` of year `y` (Python `calendar` rule used by
`datetime` validation). -/
def daysInMonth (y m : Nat) : Nat :=
  if m = 2 then (if isLeapYear y then 29 else 28)
  else if m = 4 ∨ m = 6 ∨ m = 9 ∨ m = 11 then 30
  else 31

/-- Validation performed by the `datetime` constructor (hence by
`datetime.strptime`): year in `MINYEAR..MAXYEAR = 1..9999`, month `1..12`,
day within the month.  Returns `none` where Python raises `ValueError`. -/
def mkValidDate (y m d : Nat) : Option Date :=
  if 1 ≤ y ∧ y ≤ 9999 ∧ 1 ≤ m ∧ m ≤ 12 ∧ 1 ≤ d ∧ d ≤ daysInMonth y m then
    some ⟨y, m, d⟩
  else none

/-- One match of the loose-scan pattern `\d{2}/\d{2}/\d{2,4}` (line 88 of
`src/main.py`).  A matched substring `mm/dd/y…` is determined by the month
digits' value `m < 100`, the day digits' value `d < 100`, the number of year
digits `ylen ∈ {2, 3, 4}` and their value `y < 10 ^ ylen`. -/
structure DateTok where
  m : Nat
  d : Nat
  ylen : Nat
  y : Nat
deriving DecidableEq, Repr

/-- Century windowing of `strptime`'s `%y` directive: `00..68 ↦ 2000..2068`,
`69..99 ↦ 1969..1999`. -/
def windowY2 (yy : Nat) : Nat := if yy ≤ 68 then 2000 + yy else 1900 + yy

/-- Embedding of line 94 of `src/main.py`:
`datetime.strptime(date_str, '%m/%d/%Y' if len(last) == 4 else '%m/%d/%y')`.
A three-digit year selects `%m/%d/%y`, whose `%y` consumes only two digits,
so the trailing digit makes `strptime` fail with unconverted data. -/
def parseTok (t : DateTok) : Option Date :=
  if t.ylen = 4 then mkValidDate t.y t.m t.d
  else if t.ylen = 2 then mkValidDate (windowY2 t.y) t.m t.d
  else none

/-- Value of an ASCII digit character. -/
def digVal (c : Char) : Nat := c.toNat - 48

/-- Try the pattern `\d{2}/\d{2}/\d{2,4}` at the head of the character list;
the year part is greedy, up to four digits.  Returns the token and the
remaining characters (matches of `re.findall` are non-overlapping). -/
def matchTokAt : List Char → Option (DateTok × List Char)
  | c1 :: c2 :: s1 :: c3 :: c4 :: s2 :: rest =>
    if c1.isDigit ∧ c2.isDigit ∧ s1 = '/' ∧ c3.isDigit ∧ c4.isDigit ∧ s2 = '/' then
      if 2 ≤ ((rest.takeWhile Char.isDigit).take 4).length then
        some (⟨10 * digVal c1 + digVal c2, 10 * digVal c3 + digVal c4,
               ((rest.takeWhile Char.isDigit).take 4).length,
               ((rest.takeWhile Char.isDigit).take 4).foldl
                 (fun acc c => 10 * acc + digVal c) 0⟩,
              rest.drop ((rest.takeWhile Char.isDigit).take 4).length)
      else none
    else none
  | _ => none

/-- Left-to-right non-overlapping scan of `re.findall(r'\d{2}/\d{2}/\d{2,4}', content)`
(line 88 of `src/main.py`).  Fuelled recursion; every step consumes at least
one character, so fuel `cs.length` never runs out. -/
def findallGo : Nat → List Char → List DateTok
  | 0, _ => []
  | _ + 1, [] => []
  | fuel + 1, c :: cs =>
    match matchTokAt (c :: cs) with
    | some (t, rest) => t :: findallGo fuel rest
    | none => findallGo fuel cs

/-- All loose-scan candidates of a text, in text order. -/
def findallDates (cs : List Char) : List DateTok := findallGo cs.length cs

/-- Match a literal character sequence, returning the remaining input. -/
def matchLit : List Char → List Char → Option (List Char)
  | [], cs => some cs
  | _ :: _, [] => none
  | l :: ls, c :: cs => if c = l then matchLit ls cs else none

/-- Match exactly `n` digit characters, accumulating their value. -/
def matchDigitsGo : Nat → Nat → List Char → Option (Nat × List Char)
  | 0, acc, cs => some (acc, cs)
  | _ + 1, _, [] => none
  | n + 1, acc, c :: cs =>
    if c.isDigit then matchDigitsGo n (10 * acc + digVal c) cs else none

/-- Match `\d{2}/\d{2}/\d{4}` (one group of the explicit-range pattern),
returning `(month, day, year)` digit values and the remaining input. -/
def matchMDY4 (cs : List Char) : Option ((Nat × Nat × Nat) × List Char) := do
  let (m, cs1) ← matchDigitsGo 2 0 cs
  match cs1 with
  | '/' :: cs2 =>
    let (d, cs3) ← matchDigitsGo 2 0 cs2
    match cs3 with
    | '/' :: cs4 =>
      let (y, cs5) ← matchDigitsGo 4 0 cs4
      pure ((m, d, y), cs5)
    | _ => none
  | _ => none

/-- Try the full pattern
`Statement Period: (\d{2}/\d{2}/\d{4}) to (\d{2}/\d{2}/\d{4})` at the head of
the input (line 82 of `src/main.py`). -/
def matchExplicitAt (cs : List Char) : Option ((Nat × Nat × Nat) × (Nat × Nat × Nat)) := do
  let cs1 ← matchLit "Statement Period: ".data cs
  let (t1, cs2) ← matchMDY4 cs1
  let cs3 ← matchLit " to ".data cs2
  let (t2, _) ← matchMDY4 cs3
  pure (t1, t2)

/-- Left-to-right `re.search` scan for the explicit-range pattern. -/
def searchExplicitGo : Nat → List Char → Option ((Nat × Nat × Nat) × (Nat × Nat × Nat))
  | 0, _ => none
  | _ + 1, [] => none
  | fuel + 1, c :: cs =>
    match matchExplicitAt (c :: cs) with
    | some r => some r
    | none => searchExplicitGo fuel cs

/-- First match of the labeled explicit-range pattern, if any. -/
def searchExplicit (cs : List Char) : Option ((Nat × Nat × Nat) × (Nat × Nat × Nat)) :=
  searchExplicitGo cs.length cs

/-- `datetime.strptime(group, '%m/%d/%Y')` on a matched group `(m, d, y)`
(lines 84 and 85 of `src/main.py`). -/
def strptimeMDY4 (t : Nat × Nat × Nat) : Option Date :=
  mkValidDate t.2.2 t.1 t.2.1

/-- Year-range filter of line 95: `year_min <= date.year <= year_max` with
`year_min = 2000` fixed (line 73) and `year_max` the current year at run
time (line 74), a parameter here. -/
def validYear (yearMax : Nat) (d : Date) : Bool :=
  2000 ≤ d.year && d.year ≤ yearMax

/-- Lines 90 to 98: parse every candidate, silently dropping candidates that
fail `strptime` or the year-range check. -/
def filterValid (yearMax : Nat) (toks : List DateTok) : List Date :=
  (toks.filterMap parseTok).filter (validYear yearMax)

/-- The valid dates the loose scan of a text yields (`date_objects`). -/
def looseDates (yearMax : Nat) (content : List Char) : List Date :=
  filterValid yearMax (findallDates content)

/-- Lines 100 to 107: if any valid date remains, sort and take the first and
last as the period; otherwise skip this document (`none`).  Python's
`list.sort` is stable, as is `List.insertionSort`. -/
def looseResolve (yearMax : Nat) (content : List Char) : Option (Date × Date) :=
  match List.insertionSort dle (looseDates yearMax content) with
  | [] => none
  | d :: rest => some (d, (d :: rest).getLast (List.cons_ne_nil d rest))

/-- Lines 81 to 107: resolve one text.  `Except.error` models an uncaught
`ValueError` from `strptime` on the explicit path, which aborts the whole
run; `Option.none` models the printed skip of the document. -/
def resolveText (yearMax : Nat) (content : List Char) : Except String (Option (Date × Date)) :=
  match searchExplicit content with
  | some (t1, t2) =>
    match strptimeMDY4 t1, strptimeMDY4 t2 with
    | some s, some e => .ok (some (s, e))
    | _, _ => .error "ValueError"
  | none => .ok (looseResolve yearMax content)

/-- ASCII digit character of a value below ten. -/
def digCh (n : Nat) : Char := Char.ofNat (48 + n)

/-- Two-digit zero-padded rendering, as `strftime`'s `%m` and `%d` produce
for values below 100. -/
def pad2 (n : Nat) : List Char := [digCh (n / 10), digCh (n % 10)]

/-- Four-digit zero-padded rendering, as `strftime`'s `%Y` produces for the
four-digit years this pipeline handles. -/
def pad4 (n : Nat) : List Char :=
  [digCh (n / 1000), digCh (n / 100 % 10), digCh (n / 10 % 10), digCh (n % 10)]

/-- `date.strftime('%Y-%m-%d')` (line 111 of `src/main.py`). -/
def fmtDate (d : Date) : List Char :=
  pad4 d.year ++ ['-'] ++ pad2 d.month ++ ['-'] ++ pad2 d.day

/-- The canonical base name
`f"{start.strftime('%Y-%m-%d')}to{end.strftime('%Y-%m-%d')}"` (line 111). -/
def rangeBase (s e : Date) : List Char := fmtDate s ++ "to".data ++ fmtDate e

/-- The canonical target file name, base name plus `".pdf"` (line 112). -/
def rangeName (s e : Date) : String := String.mk (rangeBase s e ++ ".pdf".data)

/-- Check that the first list is a prefix of the second (on characters). -/
def charsPre : List Char → List Char → Bool
  | [], _ => true
  | _ :: _, [] => false
  | a :: as, b :: bs => a == b && charsPre as bs

/-- Python `str.endswith`: the suffix read backwards is a prefix of the
string read backwards. -/
def strEndsWith (s suf : String) : Bool := charsPre suf.data.reverse s.data.reverse

/-- Python slicing `s[:-n]`: drop the last `n` characters (empty result when
`n` exceeds the length). -/
def strDropRight (s : String) (n : Nat) : String :=
  String.mk (s.data.take (s.data.length - n))

/-- One extracted text file of `output_text`: its file name and content. -/
structure TextFile where
  name : String
  content : List Char

/-- One element of `renaming_info` (line 113): the resolved start date, the
original PDF name, and the computed target name. -/
structure Entry where
  start : Date
  orig : String
  target : String
deriving DecidableEq, Repr

/-- Lines 109 to 113: strip the `.txt` suffix to recover the original PDF
name and build the renaming entry from the resolved period. -/
def mkEntry (txtName : String) (p : Date × Date) : Entry :=
  ⟨p.1, strDropRight txtName 4, rangeName p.1 p.2⟩

/-- Per-file step of the extraction loop (lines 76 to 113): files not ending
in `.txt` are ignored, and a `none` resolution is a printed skip. -/
def processFile (yearMax : Nat) (f : TextFile) : Except String (Option Entry) :=
  if strEndsWith f.name ".txt" then
    (resolveText yearMax f.content).map (Option.map (mkEntry f.name))
  else .ok none

/-- Lines 70 to 115: fold the extraction step over the listing of
`output_text` (the list order is the `os.listdir` order, which is
arbitrary), collecting `renaming_info`. -/
def extract_date_and_prepare_renaming (yearMax : Nat) : List TextFile → Except String (List Entry)
  | [] => .ok []
  | f :: files =>
    match processFile yearMax f with
    | .error e => .error e
    | .ok none => extract_date_and_prepare_renaming yearMax files
    | .ok (some entry) =>
      match extract_date_and_prepare_renaming yearMax files with
      | .error e => .error e
      | .ok rest => .ok (entry :: rest)

/-- `new_pdf_name.rsplit('.', 1)[0]` (line 129): everything before the last
dot, or the whole string when no dot occurs. -/
def stripLastExt (s : String) : String :=
  match s.data.reverse.dropWhile (· != '.') with
  | [] => s
  | _ :: rest => String.mk rest.reverse

/-- The sequence of target names probed by the collision loop of lines 126
to 135: first the canonical name itself, then `base_1.pdf`, `base_2.pdf`,
and so on. -/
def candName (target : String) : Nat → String
  | 0 => target
  | k + 1 => stripLastExt target ++ "_" ++ Nat.repr (k + 1) ++ ".pdf"

/-- The `while os.path.exists` probe loop (lines 131 to 135), fuelled.  The
Python loop always terminates because the probed names are pairwise distinct
and the directory is finite; fuel `fs.length + 1` realises the same bound. -/
def probeFrom (fs : List String) (target : String) : Nat → Nat → Option String
  | 0, _ => none
  | fuel + 1, k =>
    if candName target k ∈ fs then probeFrom fs target fuel (k + 1)
    else some (candName target k)

/-- Probe for the first non-existing target name, starting at the canonical
name itself. -/
def probe (fs : List String) (target : String) : Option String :=
  probeFrom fs target (fs.length + 1) 0

/-- Outcome of the renaming loop: `ok` carries the committed renames (in
commit order) and the final directory contents; `err` models an uncaught
exception aborting the run, carrying the renames committed before it. -/
inductive RenameResult where
  | ok (log : List (String × String)) (fs : List String)
  | err (msg : String) (log : List (String × String)) (fs : List String)
deriving DecidableEq, Repr

/-- The renaming loop of lines 124 to 138 over the sorted `renaming_info`.
`os.rename` raises an uncaught `FileNotFoundError` when the source file is
absent, aborting the batch; a successful rename removes the original name
from the directory and adds the target name. -/
def renameAll (fs : List String) : List Entry → RenameResult
  | [] => .ok [] fs
  | t :: ts =>
    match probe fs t.target with
    | none => .err "probe fuel exhausted" [] fs
    | some target =>
      if t.orig ∈ fs then
        match renameAll (target :: fs.erase t.orig) ts with
        | .ok log fs2 => .ok ((t.orig, target) :: log) fs2
        | .err m log fs2 => .err m ((t.orig, target) :: log) fs2
      else .err ("FileNotFoundError: " ++ t.orig) [] fs

/-- Order used by `sorted(renaming_info, key=lambda x: x[0])` (line 122):
by start date only; no other component takes part in the key. -/
def entryLe (a b : Entry) : Prop := dle a.start b.start

instance : DecidableRel entryLe := fun a b => Nat.decLe a.start.key b.start.key

instance : IsTotal Entry entryLe := ⟨fun a b => Nat.le_total a.start.key b.start.key⟩

instance : IsTrans Entry entryLe := ⟨fun _ _ _ hab hbc => Nat.le_trans hab hbc⟩

/-- `sorted` of line 122.  Python's `sorted` is stable; so is
`List.insertionSort`. -/
def sortTasks (infos : List Entry) : List Entry := List.insertionSort entryLe infos

/-- Lines 120 to 138: extract, sort by start date, rename in order.  An
extraction error (uncaught `ValueError`) aborts before any rename. -/
def rename_files_chronologically (yearMax : Nat) (files : List TextFile)
    (fs : List String) : RenameResult :=
  match extract_date_and_prepare_renaming yearMax files with
  | .error e => .err e [] fs
  | .ok infos => renameAll fs (sortTasks infos)

/-- Modelled from the spec: the repository has no parser of its canonical
names, so re-parsing (testable property "Round-trip of range naming") is
embedded from the spec's words.  Parse two digit characters. -/
def parse2 : List Char → Option Nat
  | [a, b] =>
    if a.isDigit ∧ b.isDigit then some (10 * digVal a + digVal b) else none
  | _ => none

/-- Modelled from the spec: parse four digit characters. -/
def parse4 : List Char → Option Nat
  | [a, b, c, d] =>
    if a.isDigit ∧ b.isDigit ∧ c.isDigit ∧ d.isDigit then
      some (1000 * digVal a + 100 * digVal b + 10 * digVal c + digVal d)
    else none
  | _ => none

/-- Modelled from the spec: parse a `YYYY-MM-DD` rendering back into its
date. -/
def parseDate10 : List Char → Option Date
  | [y1, y2, y3, y4, h1, m1, m2, h2, d1, d2] =>
    if h1 = '-' ∧ h2 = '-' then
      (parse4 [y1, y2, y3, y4]).bind fun y =>
        (parse2 [m1, m2]).bind fun m =>
          (parse2 [d1, d2]).map fun d => ⟨y, m, d⟩
    else none
  | _ => none

/-- Modelled from the spec: parse a canonical range base name
`YYYY-MM-DDtoYYYY-MM-DD` back into its two dates. -/
def parseRangeBase : List Char → Option (Date × Date)
  | [y1, y2, y3, y4, h1, m1, m2, h2, d1, d2, t1, t2,
     y5, y6, y7, y8, h3, n1, n2, h4, e1, e2] =>
    if t1 = 't' ∧ t2 = 'o' then
      (parseDate10 [y1, y2, y3, y4, h1, m1, m2, h2, d1, d2]).bind fun s =>
        (parseDate10 [y5, y6, y7, y8, h3, n1, n2, h4, e1, e2]).map fun e => (s, e)
    else none
  | _ => none

/-! ## Helper lemmas -/

instance {ε α : Type} [DecidableEq ε] [DecidableEq α] : DecidableEq (Except ε α) := fun a b =>
  match a, b with
  | .error e1, .error e2 =>
      decidable_of_iff (e1 = e2) ⟨fun h => by rw [h], fun h => by injection h⟩
  | .ok a1, .ok a2 =>
      decidable_of_iff (a1 = a2) ⟨fun h => by rw [h], fun h => by injection h⟩
  | .error _, .ok _ => .isFalse fun h => Except.noConfusion h
  | .ok _, .error _ => .isFalse fun h => Except.noConfusion h

/-- In a list sorted by `dle`, every element is below the last one. -/
theorem dle_getLast_of_sorted :
    ∀ (l : List Date) (hne : l ≠ []), List.Sorted dle l → ∀ x ∈ l, dle x (l.getLast hne)
  | [], hne, _, _, _ => absurd rfl hne
  | [_], _, _, x, hx => by
      simp only [List.mem_singleton] at hx
      subst hx
      exact Nat.le_refl _
  | a :: b :: t, _, hs, x, hx => by
      rw [List.getLast_cons (List.cons_ne_nil b t)]
      rcases List.mem_cons.mp hx with h | h
      · subst h
        exact List.rel_of_sorted_cons hs _ (List.getLast_mem (List.cons_ne_nil b t))
      · exact dle_getLast_of_sorted (b :: t) (List.cons_ne_nil b t) hs.of_cons x h

/-! ## Claims -/

/-- C1: for every extracted text in which the labeled explicit-range pattern
does not match, if the loose scan finds at least one candidate that parses
and whose year lies in the acceptable range, then resolution succeeds, start
is the chronologically earliest such date, end the chronologically latest
(hence start = end when exactly one valid date exists), and start ≤ end. -/
theorem C1_loose_scan_minmax (yearMax : Nat) (content : List Char)
    (hexp : searchExplicit content = none)
    (hne : looseDates yearMax content ≠ []) :
    ∃ s e, resolveText yearMax content = .ok (some (s, e)) ∧
      s ∈ looseDates yearMax content ∧ e ∈ looseDates yearMax content ∧
      (∀ d ∈ looseDates yearMax content, dle s d ∧ dle d e) ∧ dle s e := by
  have hsorted := List.sorted_insertionSort dle (looseDates yearMax content)
  have hperm := List.perm_insertionSort dle (looseDates yearMax content)
  have hres : resolveText yearMax content = .ok (looseResolve yearMax content) := by
    unfold resolveText
    rw [hexp]
  rw [hres]
  unfold looseResolve
  cases hs : List.insertionSort dle (looseDates yearMax content) with
  | nil =>
      rw [hs] at hperm
      exact absurd hperm.symm.eq_nil hne
  | cons d rest =>
      rw [hs] at hsorted hperm
      refine ⟨d, (d :: rest).getLast (List.cons_ne_nil d rest), rfl, ?_, ?_, ?_, ?_⟩
      · exact hperm.mem_iff.mp (List.mem_cons_self d rest)
      · exact hperm.mem_iff.mp (List.getLast_mem (List.cons_ne_nil d rest))
      · intro x hx
        have hx' : x ∈ d :: rest := hperm.mem_iff.mpr hx
        constructor
        · rcases List.mem_cons.mp hx' with h | h
          · subst h
            exact Nat.le_refl _
          · exact List.rel_of_sorted_cons hsorted x h
        · exact dle_getLast_of_sorted _ (List.cons_ne_nil d rest) hsorted x hx'
      · exact dle_getLast_of_sorted _ (List.cons_ne_nil d rest) hsorted d
          (List.mem_cons_self d rest)

/-- Witness for C1 at the spec's loose-scan test: text containing
`03/05/2021`, `01/01/2021`, `12/31/2021` and no label resolves with the
stated min/max property (and indeed to `2021-01-01`, `2021-12-31`). -/
theorem C1_loose_scan_minmax_witness :
    searchExplicit "03/05/2021 01/01/2021 12/31/2021".data = none ∧
    looseDates 2021 "03/05/2021 01/01/2021 12/31/2021".data ≠ [] ∧
    (∃ s e, resolveText 2021 "03/05/2021 01/01/2021 12/31/2021".data = .ok (some (s, e)) ∧
      s ∈ looseDates 2021 "03/05/2021 01/01/2021 12/31/2021".data ∧
      e ∈ looseDates 2021 "03/05/2021 01/01/2021 12/31/2021".data ∧
      (∀ d ∈ looseDates 2021 "03/05/2021 01/01/2021 12/31/2021".data, dle s d ∧ dle d e) ∧
      dle s e) :=
  ⟨by decide, by decide,
   C1_loose_scan_minmax 2021 "03/05/2021 01/01/2021 12/31/2021".data (by decide) (by decide)⟩

/-- C2: for every extracted text containing a labeled range
`Statement Period: MM/DD/YYYY to MM/DD/YYYY`, resolution uses exactly the
two dates of the labeled pair found (first as start, second as end); no
loose scan runs, so any other date-shaped substrings have no effect: any
two texts with the same labeled match resolve identically. -/
theorem C2_explicit_short_circuit (yearMax : Nat) (content : List Char)
    (t1 t2 : Nat × Nat × Nat) (s e : Date)
    (hm : searchExplicit content = some (t1, t2))
    (hs : strptimeMDY4 t1 = some s) (he : strptimeMDY4 t2 = some e) :
    resolveText yearMax content = .ok (some (s, e)) ∧
    (∀ content2 : List Char, searchExplicit content2 = some (t1, t2) →
      resolveText yearMax content2 = resolveText yearMax content) := by
  constructor
  · simp [resolveText, hm, hs, he]
  · intro content2 h2
    simp [resolveText, hm, h2]

/-- Witness for C2 at the spec's short-circuit test: the labeled pair wins
over the stray dates `12/31/2019` and `03/03/2003`. -/
theorem C2_explicit_short_circuit_witness :
    searchExplicit
      "Statement Period: 01/05/2022 to 02/05/2022 stray 12/31/2019 03/03/2003".data
      = some ((1, 5, 2022), (2, 5, 2022)) ∧
    resolveText 2025
      "Statement Period: 01/05/2022 to 02/05/2022 stray 12/31/2019 03/03/2003".data
      = .ok (some (⟨2022, 1, 5⟩, ⟨2022, 2, 5⟩)) :=
  ⟨by decide,
   (C2_explicit_short_circuit 2025
      "Statement Period: 01/05/2022 to 02/05/2022 stray 12/31/2019 03/03/2003".data
      (1, 5, 2022) (2, 5, 2022) ⟨2022, 1, 5⟩ ⟨2022, 2, 5⟩
      (by decide) (by decide) (by decide)).1⟩

/-- C3 counterexample: a text with the single valid date `03/05/2021`
resolves with start = end, yet the computed target name is the range form
`2021-03-05to2021-03-05.pdf`, not the claimed single-date form
`2021-03-05.pdf` — line 111 of `src/main.py` always builds the `to` form. -/
theorem C3_counterexample :
    resolveText 2025 "Total 03/05/2021 due".data
      = .ok (some (⟨2021, 3, 5⟩, ⟨2021, 3, 5⟩)) ∧
    extract_date_and_prepare_renaming 2025 [⟨"stmt.pdf.txt", "Total 03/05/2021 due".data⟩]
      = .ok [⟨⟨2021, 3, 5⟩, "stmt.pdf", "2021-03-05to2021-03-05.pdf"⟩] ∧
    "2021-03-05to2021-03-05.pdf" ≠ "2021-03-05.pdf" := by
  refine ⟨by decide, by decide, by decide⟩

/-- C3 amended: for every document whose resolution succeeds, the target
name is always the range form `YYYY-MM-DDtoYYYY-MM-DD` plus `.pdf`, built
from the resolved start and end — also when start = end; the single-date
form is never produced. -/
theorem C3_range_name_always (yearMax : Nat) (f : TextFile) (entry : Entry)
    (h : processFile yearMax f = .ok (some entry)) :
    ∃ p : Date × Date, resolveText yearMax f.content = .ok (some p) ∧
      entry = mkEntry f.name p ∧
      entry.start = p.1 ∧
      entry.target = rangeName p.1 p.2 ∧
      (p.1 = p.2 → entry.target = rangeName p.1 p.1) := by
  unfold processFile at h
  by_cases htxt : strEndsWith f.name ".txt"
  · rw [if_pos htxt] at h
    cases hr : resolveText yearMax f.content with
    | error e => rw [hr] at h; exact absurd h (by simp [Except.map])
    | ok o =>
        rw [hr] at h
        cases o with
        | none => exact absurd h (by simp [Except.map])
        | some p =>
            simp only [Except.map, Option.map] at h
            cases h
            refine ⟨p, rfl, rfl, rfl, rfl, ?_⟩
            intro hpe
            show rangeName p.1 p.2 = rangeName p.1 p.1
            rw [hpe]
  · rw [if_neg htxt] at h
    exact absurd h (by simp)

/-- Witness for C3 amended at a two-date text: the entry records the range
name built from both resolved dates. -/
theorem C3_range_name_always_witness :
    processFile 2025 ⟨"b.pdf.txt", "01/02/2021 03/04/2021".data⟩
      = .ok (some ⟨⟨2021, 1, 2⟩, "b.pdf", "2021-01-02to2021-03-04.pdf"⟩) ∧
    (∃ p : Date × Date,
      resolveText 2025 "01/02/2021 03/04/2021".data = .ok (some p) ∧
      (⟨⟨2021, 1, 2⟩, "b.pdf", "2021-01-02to2021-03-04.pdf"⟩ : Entry)
        = mkEntry "b.pdf.txt" p ∧
      (⟨2021, 1, 2⟩ : Date) = p.1 ∧
      "2021-01-02to2021-03-04.pdf" = rangeName p.1 p.2 ∧
      (p.1 = p.2 → "2021-01-02to2021-03-04.pdf" = rangeName p.1 p.1)) :=
  ⟨rfl,
   C3_range_name_always 2025 ⟨"b.pdf.txt", "01/02/2021 03/04/2021".data⟩
     ⟨⟨2021, 1, 2⟩, "b.pdf", "2021-01-02to2021-03-04.pdf"⟩ rfl⟩

/-- C4 counterexample: with `A.pdf` missing and `B.pdf` present, the batch
aborts with an uncaught `FileNotFoundError` before renaming anything — the
log is empty, so the remaining document `B.pdf` is never renamed, refuting
"reported but not fatal, the batch continues". -/
theorem C4_counterexample :
    renameAll ["B.pdf"]
      [⟨⟨2021, 1, 1⟩, "A.pdf", "2021-01-01to2021-01-01.pdf"⟩,
       ⟨⟨2021, 2, 1⟩, "B.pdf", "2021-02-01to2021-02-01.pdf"⟩]
      = .err "FileNotFoundError: A.pdf" [] ["B.pdf"] := by
  decide

/-- C4 amended: if a document's original file no longer exists at rename
time, `os.rename` raises an uncaught `FileNotFoundError` and the batch
aborts at that document: no rename is committed for it and none of the
remaining documents is processed (renames committed earlier persist). -/
theorem C4_source_missing_aborts (fs : List String) (t : Entry) (ts : List Entry)
    (target : String)
    (hp : probe fs t.target = some target) (hmiss : t.orig ∉ fs) :
    renameAll fs (t :: ts) = .err ("FileNotFoundError: " ++ t.orig) [] fs := by
  unfold renameAll
  rw [hp]
  simp [hmiss]

/-- Witness for C4 amended: a concrete missing source aborts with an empty
log. -/
theorem C4_source_missing_aborts_witness :
    renameAll ["X.pdf"]
      [⟨⟨2022, 1, 1⟩, "gone.pdf", "2022-01-01to2022-01-01.pdf"⟩]
      = .err "FileNotFoundError: gone.pdf" [] ["X.pdf"] :=
  C4_source_missing_aborts ["X.pdf"]
    ⟨⟨2022, 1, 1⟩, "gone.pdf", "2022-01-01to2022-01-01.pdf"⟩ []
    "2022-01-01to2022-01-01.pdf" (by decide) (by decide)

/-- C5: the claimed positional fallback (lines 29 and 35, format
`DD-Mon-YYYY`), which the module docstring of `src/main.py` describes, does
not exist in the code: on a text whose line 29 is `15-Jan-2021` and which
has neither a labeled range nor any loose-scan candidate, the resolver
skips the document instead of resolving it. -/
theorem C5_no_positional_fallback :
    searchExplicit (List.replicate 28 '\n' ++ "15-Jan-2021".data) = none ∧
    findallDates (List.replicate 28 '\n' ++ "15-Jan-2021".data) = [] ∧
    resolveText 2025 (List.replicate 28 '\n' ++ "15-Jan-2021".data) = .ok none ∧
    extract_date_and_prepare_renaming 2025
      [⟨"pay.pdf.txt", List.replicate 28 '\n' ++ "15-Jan-2021".data⟩] = .ok [] := by
  refine ⟨by decide, by decide, by decide, by decide⟩

/-- C6: a loose-scan candidate that fails strict parsing or whose parsed
year lies outside `[2000, yearMax]` is discarded without affecting the
document-level candidate list; and a document all of whose candidates are
discarded resolves to a skip (`NoDateFound`): it contributes no renaming
entry, and the batch continues with the remaining documents unchanged. -/
theorem C6_candidate_discard (yearMax : Nat) (t : DateTok) (l1 l2 : List DateTok)
    (f : TextFile) (files : List TextFile)
    (hdisc : ∀ d : Date, parseTok t = some d → validYear yearMax d = false) :
    filterValid yearMax (l1 ++ t :: l2) = filterValid yearMax (l1 ++ l2) ∧
    (searchExplicit f.content = none → looseDates yearMax f.content = [] →
      resolveText yearMax f.content = .ok none ∧
      processFile yearMax f = .ok none ∧
      extract_date_and_prepare_renaming yearMax (f :: files)
        = extract_date_and_prepare_renaming yearMax files) := by
  constructor
  · cases hpt : parseTok t with
    | none =>
        simp [filterValid, List.filterMap_append, List.filterMap_cons, hpt]
    | some d =>
        simp [filterValid, List.filterMap_append, List.filterMap_cons, hpt,
          List.filter_cons, hdisc d hpt]
  · intro hexp hld
    have hres : resolveText yearMax f.content = .ok none := by
      unfold resolveText
      rw [hexp]
      unfold looseResolve
      rw [hld]
      rfl
    have hpf : processFile yearMax f = .ok none := by
      unfold processFile
      by_cases htxt : strEndsWith f.name ".txt"
      · rw [if_pos htxt, hres]
        rfl
      · rw [if_neg htxt]
    refine ⟨hres, hpf, ?_⟩
    conv_lhs => unfold extract_date_and_prepare_renaming
    rw [hpf]

/-- Witness for C6 at the spec's year-range test: the sole candidate
`01/01/1899` parses but is out of range, so the document is skipped and the
batch is unaffected. -/
theorem C6_candidate_discard_witness :
    filterValid 2025 ([] ++ (⟨1, 1, 4, 1899⟩ : DateTok) :: []) = filterValid 2025 ([] ++ []) ∧
    (searchExplicit ("01/01/1899".data) = none → looseDates 2025 ("01/01/1899".data) = [] →
      resolveText 2025 ("01/01/1899".data) = .ok none ∧
      processFile 2025 ⟨"c.pdf.txt", "01/01/1899".data⟩ = .ok none ∧
      extract_date_and_prepare_renaming 2025 [⟨"c.pdf.txt", "01/01/1899".data⟩]
        = extract_date_and_prepare_renaming 2025 []) :=
  C6_candidate_discard 2025 ⟨1, 1, 4, 1899⟩ [] [] ⟨"c.pdf.txt", "01/01/1899".data⟩ []
    (fun d h => by
      have h2 : (some (⟨1899, 1, 1⟩ : Date) : Option Date) = some d := h
      cases h2
      decide)

/-- Soundness of the collision-probe loop: a returned name is the first
candidate, from index `k` on, that does not exist. -/
theorem probeFrom_sound : ∀ (fuel k : Nat) (fs : List String) (target t : String),
    probeFrom fs target fuel k = some t →
    ∃ j, k ≤ j ∧ t = candName target j ∧ t ∉ fs ∧
      ∀ i, k ≤ i → i < j → candName target i ∈ fs := by
  intro fuel
  induction fuel with
  | zero =>
      intro k fs target t h
      simp [probeFrom] at h
  | succ n ih =>
      intro k fs target t h
      unfold probeFrom at h
      by_cases hc : candName target k ∈ fs
      · rw [if_pos hc] at h
        obtain ⟨j, hkj, ht, hnot, hall⟩ := ih (k + 1) fs target t h
        refine ⟨j, by omega, ht, hnot, fun i hki hij => ?_⟩
        rcases Nat.eq_or_lt_of_le hki with heq | hlt
        · rw [← heq]
          exact hc
        · exact hall i hlt hij
      · rw [if_neg hc] at h
        cases h
        exact ⟨k, Nat.le_refl k, rfl, hc,
          fun i h1 h2 => absurd (Nat.lt_of_le_of_lt h1 h2) (Nat.lt_irrefl k)⟩

/-- C7: every rename the Renamer commits (every log entry is the head of its
own recursive call, quantified here over the directory state `fs` at that
moment) goes to a target that did not exist immediately before the rename;
the target is probe candidate `N` (the canonical name for `N = 0`, the
`_N`-suffixed name for `N ≥ 1`) and every earlier candidate existed. -/
theorem C7_no_overwrite (fs : List String) (t : Entry) (ts : List Entry)
    (msg o target : String) (rest : List (String × String)) (fs2 : List String)
    (h : renameAll fs (t :: ts) = .ok ((o, target) :: rest) fs2 ∨
         renameAll fs (t :: ts) = .err msg ((o, target) :: rest) fs2) :
    target ∉ fs ∧
    ∃ k, target = candName t.target k ∧ ∀ j < k, candName t.target j ∈ fs := by
  unfold renameAll at h
  cases hp : probe fs t.target with
  | none =>
      rw [hp] at h
      rcases h with h | h <;> simp at h
  | some tg =>
      simp only [hp] at h
      by_cases ho : t.orig ∈ fs
      · rw [if_pos ho] at h
        cases hrec : renameAll (tg :: fs.erase t.orig) ts with
        | ok log fsf =>
            rw [hrec] at h
            rcases h with h | h
            · simp only [RenameResult.ok.injEq, List.cons.injEq, Prod.mk.injEq] at h
              obtain ⟨⟨⟨_, htg⟩, _⟩, _⟩ := h
              subst htg
              unfold probe at hp
              obtain ⟨j, _, ht, hnot, hall⟩ := probeFrom_sound _ 0 fs t.target _ hp
              exact ⟨hnot, j, ht, fun i hij => hall i (Nat.zero_le i) hij⟩
            · simp at h
        | err m log fsf =>
            rw [hrec] at h
            rcases h with h | h
            · simp at h
            · simp only [RenameResult.err.injEq, List.cons.injEq, Prod.mk.injEq] at h
              obtain ⟨_, ⟨⟨_, htg⟩, _⟩, _⟩ := h
              subst htg
              unfold probe at hp
              obtain ⟨j, _, ht, hnot, hall⟩ := probeFrom_sound _ 0 fs t.target _ hp
              exact ⟨hnot, j, ht, fun i hij => hall i (Nat.zero_le i) hij⟩
      · rw [if_neg ho] at h
        rcases h with h | h <;> simp at h

/-- Witness for C7: with the canonical name already taken, the committed
target is the fresh `_1`-suffixed candidate. -/
theorem C7_no_overwrite_witness :
    "2021-01-01to2021-02-01_1.pdf" ∉ ["2021-01-01to2021-02-01.pdf", "a.pdf"] ∧
    ∃ k, "2021-01-01to2021-02-01_1.pdf" = candName "2021-01-01to2021-02-01.pdf" k ∧
      ∀ j < k, candName "2021-01-01to2021-02-01.pdf" j
        ∈ ["2021-01-01to2021-02-01.pdf", "a.pdf"] :=
  C7_no_overwrite ["2021-01-01to2021-02-01.pdf", "a.pdf"]
    ⟨⟨2021, 1, 1⟩, "a.pdf", "2021-01-01to2021-02-01.pdf"⟩ [] "" "a.pdf"
    "2021-01-01to2021-02-01_1.pdf" []
    ["2021-01-01to2021-02-01_1.pdf", "2021-01-01to2021-02-01.pdf"]
    (Or.inl (by decide))

/-- One successful step of the renaming loop. -/
theorem renameAll_cons_ok (fs : List String) (t : Entry) (ts : List Entry) (tg : String)
    (log : List (String × String)) (fs2 : List String)
    (hp : probe fs t.target = some tg) (ho : t.orig ∈ fs)
    (hrec : renameAll (tg :: fs.erase t.orig) ts = .ok log fs2) :
    renameAll fs (t :: ts) = .ok ((t.orig, tg) :: log) fs2 := by
  conv_lhs => unfold renameAll
  simp only [hp]
  rw [if_pos ho, hrec]

/-- C8 counterexample: `os.listdir` order is arbitrary; with enumeration
order `B.pdf.txt` before `A.pdf.txt`, both resolving to the same start date
`2021-01-05` and the same base name, the stable sort by start date alone
keeps `B` first, so `B.pdf` — not the lexicographically earlier `A.pdf` —
receives the unsuffixed name, and `A.pdf` receives `_1`.  There is no
secondary sort key in line 122 of `src/main.py`. -/
theorem C8_counterexample :
    rename_files_chronologically 2025
      [⟨"B.pdf.txt", "01/05/2021".data⟩, ⟨"A.pdf.txt", "01/05/2021".data⟩]
      ["A.pdf", "B.pdf"]
      = .ok [("B.pdf", "2021-01-05to2021-01-05.pdf"),
             ("A.pdf", "2021-01-05to2021-01-05_1.pdf")]
        ["2021-01-05to2021-01-05_1.pdf", "2021-01-05to2021-01-05.pdf"] ∧
    ("A.pdf", "2021-01-05to2021-01-05.pdf") ∉
      [(("B.pdf" : String), ("2021-01-05to2021-01-05.pdf" : String)),
       ("A.pdf", "2021-01-05to2021-01-05_1.pdf")] := by
  refine ⟨by decide, by decide⟩

/-- C8 amended: renames are committed in ascending order of start date
(`sortTasks` sorts by start date and is a permutation of the extraction
output), ties being kept in the extraction enumeration order because the
sort is stable and has no secondary key; hence of two documents with equal
start dates and the same target name, the one enumerated first receives the
unsuffixed name and the other receives the `_1` suffix. -/
theorem C8_stable_order (infos : List Entry) (fs : List String) (e1 e2 : Entry)
    (h12 : entryLe e1 e2) (htt : e2.target = e1.target)
    (ho1 : e1.orig ∈ fs) (ho2 : e2.orig ∈ fs) (hoo : e2.orig ≠ e1.orig)
    (ht0 : e1.target ∉ fs) (ht1 : candName e1.target 1 ∉ fs)
    (hnc : candName e1.target 1 ≠ e1.target) :
    List.Sorted entryLe (sortTasks infos) ∧
    (sortTasks infos).Perm infos ∧
    sortTasks [e1, e2] = [e1, e2] ∧
    ∃ fs2, renameAll fs (sortTasks [e1, e2]) =
      .ok [(e1.orig, e1.target), (e2.orig, candName e1.target 1)] fs2 := by
  have hsort2 : sortTasks [e1, e2] = [e1, e2] := by
    unfold sortTasks
    simp [List.insertionSort, List.orderedInsert, h12]
  have hp1 : probe fs e1.target = some e1.target := by
    unfold probe probeFrom
    rw [show candName e1.target 0 = e1.target from rfl, if_neg ht0]
  have hnot1 : candName e1.target 1 ∉ e1.target :: fs.erase e1.orig := by
    intro hmem
    rcases List.mem_cons.mp hmem with h | h
    · exact hnc h
    · exact ht1 (List.mem_of_mem_erase h)
  have hp2 : probe (e1.target :: fs.erase e1.orig) e2.target
      = some (candName e1.target 1) := by
    rw [htt]
    unfold probe
    rw [List.length_cons]
    unfold probeFrom
    rw [show candName e1.target 0 = e1.target from rfl,
      if_pos (List.mem_cons_self e1.target (fs.erase e1.orig))]
    unfold probeFrom
    simp only [Nat.zero_add]
    rw [if_neg hnot1]
  have ho2' : e2.orig ∈ e1.target :: fs.erase e1.orig :=
    List.mem_cons_of_mem _ ((List.mem_erase_of_ne hoo).mpr ho2)
  have hstep2 : renameAll (e1.target :: fs.erase e1.orig) [e2]
      = .ok [(e2.orig, candName e1.target 1)]
        (candName e1.target 1 :: (e1.target :: fs.erase e1.orig).erase e2.orig) :=
    renameAll_cons_ok _ e2 [] _ [] _ hp2 ho2' rfl
  have hstep1 := renameAll_cons_ok fs e1 [e2] e1.target _ _ hp1 ho1 hstep2
  exact ⟨List.sorted_insertionSort entryLe infos, List.perm_insertionSort entryLe infos,
    hsort2, ⟨_, by rw [hsort2]; exact hstep1⟩⟩

/-- Witness for C8 amended: two equal-start documents with the same target;
the first-enumerated one gets the canonical name, the second `_1`. -/
theorem C8_stable_order_witness :
    List.Sorted entryLe (sortTasks []) ∧
    (sortTasks []).Perm [] ∧
    sortTasks [⟨⟨2021, 1, 5⟩, "A.pdf", "2021-01-05to2021-01-05.pdf"⟩,
               ⟨⟨2021, 1, 5⟩, "Bz.pdf", "2021-01-05to2021-01-05.pdf"⟩]
      = [⟨⟨2021, 1, 5⟩, "A.pdf", "2021-01-05to2021-01-05.pdf"⟩,
         ⟨⟨2021, 1, 5⟩, "Bz.pdf", "2021-01-05to2021-01-05.pdf"⟩] ∧
    ∃ fs2, renameAll ["A.pdf", "Bz.pdf"]
        (sortTasks [⟨⟨2021, 1, 5⟩, "A.pdf", "2021-01-05to2021-01-05.pdf"⟩,
                    ⟨⟨2021, 1, 5⟩, "Bz.pdf", "2021-01-05to2021-01-05.pdf"⟩])
      = .ok [("A.pdf", "2021-01-05to2021-01-05.pdf"),
             ("Bz.pdf", candName "2021-01-05to2021-01-05.pdf" 1)] fs2 :=
  C8_stable_order [] ["A.pdf", "Bz.pdf"]
    ⟨⟨2021, 1, 5⟩, "A.pdf", "2021-01-05to2021-01-05.pdf"⟩
    ⟨⟨2021, 1, 5⟩, "Bz.pdf", "2021-01-05to2021-01-05.pdf"⟩
    (by decide) (by decide) (by decide) (by decide) (by decide)
    (by decide) (by decide) (by decide)

/-- The value of an ASCII digit character is at most nine. -/
theorem digVal_le_nine (c : Char) (h : c.isDigit = true) : digVal c ≤ 9 := by
  unfold Char.isDigit at h
  simp at h
  obtain ⟨h1, h2⟩ := h
  have h2' : c.val.toNat ≤ (57 : UInt32).toNat := h2
  have h57 : (57 : UInt32).toNat = 57 := rfl
  unfold digVal Char.toNat
  omega

/-- Accumulating digits is bounded by the digit count. -/
theorem foldlDigits_lt : ∀ (l : List Char) (a : Nat), (∀ c ∈ l, c.isDigit = true) →
    l.foldl (fun acc c => 10 * acc + digVal c) a < (a + 1) * 10 ^ l.length := by
  intro l
  induction l with
  | nil =>
      intro a _
      simp
  | cons c cs ih =>
      intro a h
      simp only [List.foldl_cons, List.length_cons]
      have h1 : digVal c ≤ 9 := digVal_le_nine c (h c (List.mem_cons_self c cs))
      have h2 := ih (10 * a + digVal c) (fun x hx => h x (List.mem_cons_of_mem c hx))
      have h3 : (10 * a + digVal c + 1) * 10 ^ cs.length ≤ (a + 1) * 10 ^ (cs.length + 1) := by
        rw [pow_succ]
        calc (10 * a + digVal c + 1) * 10 ^ cs.length
            ≤ ((a + 1) * 10) * 10 ^ cs.length := Nat.mul_le_mul_right _ (by omega)
          _ = (a + 1) * (10 ^ cs.length * 10) := by ring
      exact Nat.lt_of_lt_of_le h2 h3

/-- A matched loose-scan token has at least two year digits and a year value
bounded by its digit count. -/
theorem matchTokAt_wf (cs : List Char) (t : DateTok) (rest : List Char)
    (h : matchTokAt cs = some (t, rest)) : 2 ≤ t.ylen ∧ t.y < 10 ^ t.ylen := by
  unfold matchTokAt at h
  split at h
  case h_1 c1 c2 s1 c3 c4 s2 rest0 =>
    split_ifs at h with hc hl
    injection h with h
    rw [Prod.mk.injEq] at h
    obtain ⟨h1, _⟩ := h
    subst h1
    have hdig : ∀ c ∈ (rest0.takeWhile Char.isDigit).take 4, c.isDigit = true :=
      fun c hcm => List.mem_takeWhile_imp (List.take_subset 4 _ hcm)
    refine ⟨hl, ?_⟩
    simpa using foldlDigits_lt ((rest0.takeWhile Char.isDigit).take 4) 0 hdig
  case h_2 => exact absurd h (by simp)

/-- Every candidate the loose scan produces has at least two year digits and
a year value bounded by its digit count. -/
theorem findallGo_wf : ∀ (fuel : Nat) (cs : List Char) (t : DateTok),
    t ∈ findallGo fuel cs → 2 ≤ t.ylen ∧ t.y < 10 ^ t.ylen := by
  intro fuel
  induction fuel with
  | zero =>
      intro cs t ht
      simp [findallGo] at ht
  | succ n ih =>
      intro cs t ht
      cases cs with
      | nil => simp [findallGo] at ht
      | cons c cs2 =>
          unfold findallGo at ht
          cases hm : matchTokAt (c :: cs2) with
          | none =>
              simp only [hm] at ht
              exact ih cs2 t ht
          | some pr =>
              obtain ⟨tok, rest⟩ := pr
              simp only [hm] at ht
              rcases List.mem_cons.mp ht with h | h
              · subst h
                exact matchTokAt_wf _ _ _ hm
              · exact ih rest t h

/-- Inversion for the `datetime` constructor model. -/
theorem mkValidDate_some_eq {y m dd : Nat} {d : Date}
    (h : mkValidDate y m dd = some d) : d = ⟨y, m, dd⟩ := by
  unfold mkValidDate at h
  split_ifs at h
  injection h with h
  exact h.symm

/-- C10: a loose-scan candidate written with a two-digit year in `69..99` is
always discarded — `%y` windowing maps it to `1969..1999`, below the fixed
`year_min = 2000` — and consequently every date the loose scan accepts has
either a four-digit year in `[2000, yearMax]` or a two-digit year in
`00..68` mapped into the 2000s. -/
theorem C10_two_digit_window (t : DateTok) (yearMax : Nat) (content : List Char) :
    (t.ylen = 2 → 69 ≤ t.y → t.y ≤ 99 →
      ∀ d : Date, parseTok t = some d → validYear yearMax d = false) ∧
    (∀ d ∈ looseDates yearMax content,
      2000 ≤ d.year ∧ d.year ≤ yearMax ∧
      ∃ t2 ∈ findallDates content, parseTok t2 = some d ∧
        (t2.ylen = 4 ∨ (t2.ylen = 2 ∧ t2.y ≤ 68 ∧ d.year = 2000 + t2.y))) := by
  constructor
  · intro h2len h69 h99 d hd
    unfold parseTok at hd
    rw [h2len] at hd
    norm_num at hd
    have hdd := mkValidDate_some_eq hd
    subst hdd
    have hw : windowY2 t.y = 1900 + t.y := by
      unfold windowY2
      rw [if_neg (by omega)]
    simp only [validYear, hw]
    have hA : decide (2000 ≤ 1900 + t.y) = false := decide_eq_false (by omega)
    rw [hA, Bool.false_and]
  · intro d hd
    unfold looseDates filterValid at hd
    rw [List.mem_filter] at hd
    obtain ⟨hmem, hval⟩ := hd
    rw [List.mem_filterMap] at hmem
    obtain ⟨t2, ht2, hpt⟩ := hmem
    have hy : 2000 ≤ d.year ∧ d.year ≤ yearMax := by simpa [validYear] using hval
    refine ⟨hy.1, hy.2, t2, ht2, hpt, ?_⟩
    have hwf := findallGo_wf _ _ t2 ht2
    unfold parseTok at hpt
    by_cases h4 : t2.ylen = 4
    · exact Or.inl h4
    · rw [if_neg h4] at hpt
      by_cases h2 : t2.ylen = 2
      · rw [if_pos h2] at hpt
        have hdd := mkValidDate_some_eq hpt
        have hyr : d.year = windowY2 t2.y := by rw [hdd]
        have hylt : t2.y < 100 := by
          rw [h2] at hwf
          simpa using hwf.2
        by_cases hy68 : t2.y ≤ 68
        · refine Or.inr ⟨h2, hy68, ?_⟩
          rw [hyr]
          unfold windowY2
          rw [if_pos hy68]
        · exfalso
          have hyr2 : d.year = 1900 + t2.y := by
            rw [hyr]
            unfold windowY2
            rw [if_neg hy68]
          omega
      · rw [if_neg h2] at hpt
        exact absurd hpt (by simp)

/-- Witness for C10: the candidate `12/31/75` parses to `1975-12-31`, whose
year fails the range check, so it is discarded. -/
theorem C10_two_digit_window_witness :
    validYear 2025 ⟨1975, 12, 31⟩ = false :=
  (C10_two_digit_window ⟨12, 31, 2, 75⟩ 2025 []).1 rfl (by decide) (by decide)
    ⟨1975, 12, 31⟩ (by decide)

/-- A digit character built from a value below ten is a digit and its value
round-trips. -/
theorem digCh_spec : ∀ k < 10, (digCh k).isDigit = true ∧ digVal (digCh k) = k := by decide

/-- Two zero-padded digits parse back to their value. -/
theorem parse2_digits (n : Nat) (h : n ≤ 99) :
    parse2 [digCh (n / 10), digCh (n % 10)] = some n := by
  have h1 := digCh_spec (n / 10) (by omega)
  have h2 := digCh_spec (n % 10) (by omega)
  show (if (digCh (n / 10)).isDigit = true ∧ (digCh (n % 10)).isDigit = true then
      some (10 * digVal (digCh (n / 10)) + digVal (digCh (n % 10))) else none) = some n
  rw [if_pos ⟨h1.1, h2.1⟩, h1.2, h2.2]
  congr 1
  omega

/-- Four zero-padded digits parse back to their value. -/
theorem parse4_digits (n : Nat) (h : n ≤ 9999) :
    parse4 [digCh (n / 1000), digCh (n / 100 % 10), digCh (n / 10 % 10), digCh (n % 10)]
      = some n := by
  have h1 := digCh_spec (n / 1000) (by omega)
  have h2 := digCh_spec (n / 100 % 10) (by omega)
  have h3 := digCh_spec (n / 10 % 10) (by omega)
  have h4 := digCh_spec (n % 10) (by omega)
  show (if (digCh (n / 1000)).isDigit = true ∧ (digCh (n / 100 % 10)).isDigit = true ∧
        (digCh (n / 10 % 10)).isDigit = true ∧ (digCh (n % 10)).isDigit = true then
      some (1000 * digVal (digCh (n / 1000)) + 100 * digVal (digCh (n / 100 % 10)) +
        10 * digVal (digCh (n / 10 % 10)) + digVal (digCh (n % 10))) else none) = some n
  rw [if_pos ⟨h1.1, h2.1, h3.1, h4.1⟩, h1.2, h2.2, h3.2, h4.2]
  congr 1
  omega

/-- A `YYYY-MM-DD` rendering parses back to its date. -/
theorem parseDate10_digits (y m dd : Nat) (hy2 : y ≤ 9999)
    (hm : m ≤ 99) (hd : dd ≤ 99) :
    parseDate10 [digCh (y / 1000), digCh (y / 100 % 10), digCh (y / 10 % 10), digCh (y % 10),
      '-', digCh (m / 10), digCh (m % 10), '-', digCh (dd / 10), digCh (dd % 10)]
      = some ⟨y, m, dd⟩ := by
  show (if ('-' : Char) = '-' ∧ ('-' : Char) = '-' then
      (parse4 [digCh (y / 1000), digCh (y / 100 % 10), digCh (y / 10 % 10),
        digCh (y % 10)]).bind fun y =>
        (parse2 [digCh (m / 10), digCh (m % 10)]).bind fun m =>
          (parse2 [digCh (dd / 10), digCh (dd % 10)]).map fun d => (⟨y, m, d⟩ : Date)
    else none) = some (⟨y, m, dd⟩ : Date)
  rw [if_pos ⟨rfl, rfl⟩, parse4_digits y hy2, parse2_digits m hm, parse2_digits dd hd]
  rfl

/-- C9: for every pair of dates `start ≤ end` with years inside the
acceptable range, parsing the canonical range base name built from them
recovers exactly the pair: name construction followed by name parsing is
the identity on such pairs. -/
theorem C9_range_name_roundtrip (s e : Date) (yearMax : Nat)
    (hse : dle s e)
    (hys : 2000 ≤ s.year) (hye : 2000 ≤ e.year)
    (hysx : s.year ≤ yearMax) (hyex : e.year ≤ yearMax) (hmax : yearMax ≤ 9999)
    (hms : s.month ≤ 12) (hds : s.day ≤ 31) (hme : e.month ≤ 12) (hde : e.day ≤ 31) :
    parseRangeBase (rangeBase s e) = some (s, e) := by
  obtain ⟨ys, ms, ds⟩ := s
  obtain ⟨ye, me, de⟩ := e
  simp only at hys hye hysx hyex hms hds hme hde
  show parseRangeBase
    [digCh (ys / 1000), digCh (ys / 100 % 10), digCh (ys / 10 % 10), digCh (ys % 10), '-',
     digCh (ms / 10), digCh (ms % 10), '-', digCh (ds / 10), digCh (ds % 10), 't', 'o',
     digCh (ye / 1000), digCh (ye / 100 % 10), digCh (ye / 10 % 10), digCh (ye % 10), '-',
     digCh (me / 10), digCh (me % 10), '-', digCh (de / 10), digCh (de % 10)]
    = some (⟨ys, ms, ds⟩, ⟨ye, me, de⟩)
  show (if ('t' : Char) = 't' ∧ ('o' : Char) = 'o' then
      (parseDate10 [digCh (ys / 1000), digCh (ys / 100 % 10), digCh (ys / 10 % 10),
        digCh (ys % 10), '-', digCh (ms / 10), digCh (ms % 10), '-', digCh (ds / 10),
        digCh (ds % 10)]).bind fun s =>
        (parseDate10 [digCh (ye / 1000), digCh (ye / 100 % 10), digCh (ye / 10 % 10),
          digCh (ye % 10), '-', digCh (me / 10), digCh (me % 10), '-', digCh (de / 10),
          digCh (de % 10)]).map fun e => (s, e)
    else none) = some (⟨ys, ms, ds⟩, ⟨ye, me, de⟩)
  rw [if_pos ⟨rfl, rfl⟩,
    parseDate10_digits ys ms ds (by omega) (by omega) (by omega),
    parseDate10_digits ye me de (by omega) (by omega) (by omega)]
  rfl

/-- Witness for C9 at a concrete period. -/
theorem C9_range_name_roundtrip_witness :
    parseRangeBase (rangeBase ⟨2021, 1, 5⟩ ⟨2022, 12, 31⟩)
      = some (⟨2021, 1, 5⟩, ⟨2022, 12, 31⟩) :=
  C9_range_name_roundtrip ⟨2021, 1, 5⟩ ⟨2022, 12, 31⟩ 2025 (by decide) (by decide)
    (by decide) (by decide) (by decide) (by decide) (by decide) (by decide)
    (by decide) (by decide)

end RenameMyCheck
